import Mathlib

/-!
Verification of the CPU distribution-fill kernels of
`aten/src/ATen/native/cpu/DistributionTemplates.h`.

The kernels are embedded shallowly:

* An element-type tag `ScalarType` models `at::ScalarType` restricted to the
  types the dispatch macros of this file can select.
* A generator `Gen` models the shared pseudorandom engine as two draw streams
  (uniform-real draws in `[0,1)` and raw integer draws) together with an
  offset counting how many engine draws have been consumed; each primitive
  draw advances the offset by one.  A kernel's draw count is the offset
  difference between its pre-call and post-call generator.
* `cpu_serial_kernel` with a nullary functor is `serialFill`: it produces one
  value per output element, in order, threading the generator.
* Real-valued samples are modelled over `ℚ`; the transcendental functions the
  Box–Muller transform uses (`log`, `sqrt`, `cos`, `sin`, …) are abstract
  fields of a `MathOps` parameter, since their numerics are external to this
  file.
* Fallible kernels return a `FillResult`: the (possibly rewritten) output
  list, the post-call generator, and an optional error.  A `TORCH_CHECK`
  failure or a dispatch-macro failure produces the error case with the output
  and the generator untouched.

Definitions whose C++ source lives outside this repository's `src/` tree
(the samplers of `ATen/core/DistributionsHelper.h`, `c10::isFloatingType`)
are modelled from the specification and say so in their doc comments.
-/

namespace ATenCPU

/-- `at::ScalarType`, restricted to the element types that occur in the
dispatch macros of DistributionTemplates.h: the "all types" set
(Byte, Char, Short, Int, Long, Float, Double) plus Bool, Half, BFloat16. -/
inductive ScalarType where
  | Byte | Char | Short | Int | Long | Float | Double | Bool | Half | BFloat16
deriving DecidableEq

/-- `AT_DISPATCH_ALL_TYPES_AND3(Bool, Half, BFloat16, ...)`: all types plus
Bool, Half and BFloat16 (used at lines 22, 65, 307 and 339). -/
def allTypesAndBoolHalfBF16 : List ScalarType :=
  [.Byte, .Char, .Short, .Int, .Long, .Float, .Double, .Bool, .Half, .BFloat16]

/-- `AT_DISPATCH_ALL_TYPES_AND(at::ScalarType::BFloat16, ...)`: all types plus
BFloat16 — no Bool and no Half (used at line 36). -/
def allTypesAndBF16 : List ScalarType :=
  [.Byte, .Char, .Short, .Int, .Long, .Float, .Double, .BFloat16]

/-- `AT_DISPATCH_ALL_TYPES_AND2(Half, BFloat16, ...)`: all types plus Half and
BFloat16 — no Bool (used by `geometric_kernel`, line 266). -/
def allTypesAndHalfBF16 : List ScalarType :=
  [.Byte, .Char, .Short, .Int, .Long, .Float, .Double, .Half, .BFloat16]

/-- `AT_DISPATCH_FLOATING_TYPES_AND2(Half, BFloat16, ...)`: Double, Float,
Half, BFloat16 (used by uniform/cauchy/lognormal/exponential, the scalar
branch of `normal_kernel`, and the probability-dtype dispatch of
`bernoulli_kernel`). -/
def floatingTypesAndHalfBF16 : List ScalarType :=
  [.Double, .Float, .Half, .BFloat16]

/-- The element types accepted by the `if constexpr` chain of
`random_full_64_bits_range_kernel` (lines 37–40): int64, double, float,
bfloat16. -/
def full64SupportedSet : List ScalarType :=
  [.Long, .Double, .Float, .BFloat16]

/-- Modelled from the spec: `c10::isFloatingType` (c10/core/ScalarType.h is
not under src/) — true exactly for the floating element types double, float,
half and bfloat16. -/
def isFloatingType : ScalarType → Bool
  | .Double | .Float | .Half | .BFloat16 => true
  | _ => false

/-- The shared pseudorandom engine: an infinite stream of uniform-real draws
in `[0,1)` (`ustream`), an infinite stream of raw integer engine draws
(`nstream`), and the number of engine draws consumed so far (`off`).  The
pre-call state of a generator is the whole structure; a fill call returns the
advanced generator. -/
structure Gen where
  ustream : Nat → ℚ
  nstream : Nat → Nat
  off : Nat

/-- One uniform-real engine draw in `[0,1)` (one engine call). -/
def nextU (g : Gen) : ℚ × Gen :=
  (g.ustream g.off, { g with off := g.off + 1 })

/-- One raw integer engine draw (one engine call). -/
def nextN (g : Gen) : Nat × Gen :=
  (g.nstream g.off, { g with off := g.off + 1 })

/-- The kinds of error a kernel can report: a `TORCH_CHECK` type-domain
failure, or a dispatch macro meeting an element type outside its enumerated
set. -/
inductive KernelErr where
  | typeDomain | dispatchUnsupported
deriving DecidableEq

/-- Result of a fallible fill over a list-shaped output: the output list
(unchanged when `err` is set), the post-call generator (unchanged when `err`
is set), and the optional error. -/
structure FillResult (α : Type) where
  out : List α
  gen : Gen
  err : Option KernelErr

/-- `cpu_serial_kernel` with a nullary functor `f`: produce one value per
output element, in order, threading the generator. -/
def serialFill {α : Type} (f : Gen → α × Gen) : Nat → Gen → List α × Gen
  | 0, g => ([], g)
  | n + 1, g =>
    let q := f g
    let r := serialFill f n q.2
    (q.1 :: r.1, r.2)

/-- `cpu_serial_kernel` with a unary functor: one value per element of the
(broadcast-aligned) input list, in order, threading the generator. -/
def serialFillMap {α β : Type} (f : β → Gen → α × Gen) : List β → Gen → List α × Gen
  | [], g => ([], g)
  | p :: ps, g =>
    let q := f p g
    let r := serialFillMap f ps q.2
    (q.1 :: r.1, r.2)

/-- Modelled from the spec: `uniform_int_from_to_distribution<T>(range, base)`
(ATen/core/DistributionsHelper.h, not under src/) — draw an unsigned offset
uniformly in `[0, range)` from the generator's integer primitive and add the
signed `base`.  The value is the mathematical (pre-reinterpretation) integer. -/
def uniform_int_from_to (range : Nat) (base : Int) (g : Gen) : Int × Gen :=
  let q := nextN g
  (base + ((q.1 % range : Nat) : Int), q.2)

/-- `random_from_to_kernel` (lines 21–29): dispatch over all types plus Bool,
Half, BFloat16, then fill every element with one bounded integer draw. -/
def random_from_to_kernel (st : ScalarType) (out : List Int) (range : Nat)
    (base : Int) (g : Gen) : FillResult Int :=
  if st ∈ allTypesAndBoolHalfBF16 then
    let r := serialFill (uniform_int_from_to range base) out.length g
    ⟨r.1, r.2, none⟩
  else ⟨out, g, some .dispatchUnsupported⟩

/-- Modelled from the spec: `uniform_int_full_range_distribution<T>`
(DistributionsHelper.h, not under src/) — one draw directly across the full
64-bit domain. -/
def uniform_int_full_range (g : Gen) : Nat × Gen :=
  let q := nextN g
  (q.1 % 2 ^ 64, q.2)

/-- `random_full_64_bits_range_kernel` (lines 34–50): dispatch over all types
plus BFloat16; inside the dispatch an `if constexpr` restricts to int64,
double, float, bfloat16 and otherwise raises `TORCH_CHECK(false, ...)` before
taking the generator lock or writing anything. -/
def random_full_64_bits_range_kernel (st : ScalarType) (out : List Nat)
    (g : Gen) : FillResult Nat :=
  if st ∈ allTypesAndBF16 then
    if st ∈ full64SupportedSet then
      let r := serialFill uniform_int_full_range out.length g
      ⟨r.1, r.2, none⟩
    else ⟨out, g, some .typeDomain⟩
  else ⟨out, g, some .dispatchUnsupported⟩

/-- Modelled from the spec: `uniform_int_distribution<T>` (DistributionsHelper.h,
not under src/) — one engine draw per sample across the output type's bucket. -/
def uniform_int_sample (g : Gen) : Nat × Gen := nextN g

/-- `random_kernel` (lines 62–71): dispatch over all types plus Half,
BFloat16, Bool, then one unbounded integer draw per element. -/
def random_kernel (st : ScalarType) (out : List Nat) (g : Gen) : FillResult Nat :=
  if st ∈ allTypesAndBoolHalfBF16 then
    let r := serialFill uniform_int_sample out.length g
    ⟨r.1, r.2, none⟩
  else ⟨out, g, some .dispatchUnsupported⟩

/-- The abstract real operations the samplers use (external math library
functions and the constant pi); the embedding is parametric in them. -/
structure MathOps where
  rlog : ℚ → ℚ
  rsqrt : ℚ → ℚ
  rcos : ℚ → ℚ
  rsin : ℚ → ℚ
  rtan : ℚ → ℚ
  rexp : ℚ → ℚ
  rceil : ℚ → ℚ
  pi : ℚ

/-- The template argument at which `uniform_kernel` instantiates its sampler:
`at::uniform_real_distribution<scalar_t>` (line 208) — the OUTPUT element
type, not double. -/
def uniformSamplerScalar (st : ScalarType) : ScalarType := st

/-- The type to which `uniform_kernel` casts `from_`/`to_` BEFORE constructing
the sampler (lines 206–207: `static_cast<scalar_t>`): the output element type. -/
def uniformBoundsCastType (st : ScalarType) : ScalarType := st

/-- The template argument of `at::cauchy_distribution<double>` (line 228). -/
def cauchySamplerScalar (_ : ScalarType) : ScalarType := .Double

/-- The template argument of `at::lognormal_distribution<double>` (line 248). -/
def logNormalSamplerScalar (_ : ScalarType) : ScalarType := .Double

/-- The template argument of `at::geometric_distribution<double>` (line 268). -/
def geometricSamplerScalar (_ : ScalarType) : ScalarType := .Double

/-- The template argument of `at::exponential_distribution<double>` (line 289). -/
def exponentialSamplerScalar (_ : ScalarType) : ScalarType := .Double

/-- Modelled from the spec: the rescale performed by
`at::uniform_real_distribution` (DistributionsHelper.h, not under src/) — a
linear rescale of a uniform draw in `[0,1)` into `[from_, to_)`. -/
def uniform_real_sample (from_ to_ : ℚ) (g : Gen) : ℚ × Gen :=
  let q := nextU g
  (from_ + q.1 * (to_ - from_), q.2)

/-- `uniform_kernel` (lines 202–213): dispatch over the floating set; the
bounds are narrowed to the output element type first and the sampler is
instantiated at the output element type (see `uniformSamplerScalar`,
`uniformBoundsCastType`). -/
def uniform_kernel (st : ScalarType) (out : List ℚ) (from_ to_ : ℚ)
    (g : Gen) : FillResult ℚ :=
  if st ∈ floatingTypesAndHalfBF16 then
    let r := serialFill (uniform_real_sample from_ to_) out.length g
    ⟨r.1, r.2, none⟩
  else ⟨out, g, some .dispatchUnsupported⟩

/-- Modelled from the spec: `at::cauchy_distribution<double>`
(DistributionsHelper.h, not under src/) —
`median + sigma * tan(pi * (u - 1/2))` for one uniform draw `u`. -/
def cauchy_sample (ops : MathOps) (median sigma : ℚ) (g : Gen) : ℚ × Gen :=
  let q := nextU g
  (median + sigma * ops.rtan (ops.pi * (q.1 - 1 / 2)), q.2)

/-- `cauchy_kernel` (lines 224–233). -/
def cauchy_kernel (ops : MathOps) (st : ScalarType) (out : List ℚ)
    (median sigma : ℚ) (g : Gen) : FillResult ℚ :=
  if st ∈ floatingTypesAndHalfBF16 then
    let r := serialFill (cauchy_sample ops median sigma) out.length g
    ⟨r.1, r.2, none⟩
  else ⟨out, g, some .dispatchUnsupported⟩

/-- Modelled from the spec: one Box–Muller style normal draw as performed by
`at::normal_distribution<double>` (DistributionsHelper.h, not under src/):
two uniform draws turned into one normal sample. -/
def normal_sample (ops : MathOps) (mean std : ℚ) (g : Gen) : ℚ × Gen :=
  let q1 := nextU g
  let q2 := nextU q1.2
  (ops.rsqrt (-2 * ops.rlog (1 - q1.1)) * ops.rcos (2 * ops.pi * q2.1) * std + mean,
   q2.2)

/-- Modelled from the spec: `at::lognormal_distribution<double>`
(DistributionsHelper.h, not under src/) — exponentiate a Normal(mean, std)
draw. -/
def log_normal_sample (ops : MathOps) (mean std : ℚ) (g : Gen) : ℚ × Gen :=
  let q := normal_sample ops mean std g
  (ops.rexp q.1, q.2)

/-- `log_normal_kernel` (lines 244–253). -/
def log_normal_kernel (ops : MathOps) (st : ScalarType) (out : List ℚ)
    (mean std : ℚ) (g : Gen) : FillResult ℚ :=
  if st ∈ floatingTypesAndHalfBF16 then
    let r := serialFill (log_normal_sample ops mean std) out.length g
    ⟨r.1, r.2, none⟩
  else ⟨out, g, some .dispatchUnsupported⟩

/-- Modelled from the spec: `at::geometric_distribution<double>`
(DistributionsHelper.h, not under src/) — inverse CDF of one uniform draw
with success probability `p`, support `k ≥ 1`. -/
def geometric_sample (ops : MathOps) (p : ℚ) (g : Gen) : ℚ × Gen :=
  let q := nextU g
  (ops.rceil (ops.rlog (1 - q.1) / ops.rlog (1 - p)), q.2)

/-- `geometric_kernel` (lines 264–273): dispatch over ALL types plus Half and
BFloat16 (`AT_DISPATCH_ALL_TYPES_AND2`), i.e. the integer types are inside
the dispatch set; only Bool is outside. -/
def geometric_kernel (ops : MathOps) (st : ScalarType) (out : List ℚ)
    (p : ℚ) (g : Gen) : FillResult ℚ :=
  if st ∈ allTypesAndHalfBF16 then
    let r := serialFill (geometric_sample ops p) out.length g
    ⟨r.1, r.2, none⟩
  else ⟨out, g, some .dispatchUnsupported⟩

/-- Modelled from the spec: `at::exponential_distribution<double>`
(DistributionsHelper.h, not under src/) — `-ln(1 - u) / lambda` for one
uniform draw `u`. -/
def exponential_sample (ops : MathOps) (lambda : ℚ) (g : Gen) : ℚ × Gen :=
  let q := nextU g
  (-(ops.rlog (1 - q.1)) / lambda, q.2)

/-- `exponential_kernel` (lines 284–294): the
`TORCH_CHECK(isFloatingType(iter.dtype()), ...)` at line 286 runs BEFORE the
dispatch, before the generator lock is taken and before any element is
written, so a non-floating output type yields a type-domain error with the
output and the generator untouched. -/
def exponential_kernel (ops : MathOps) (st : ScalarType) (out : List ℚ)
    (lambda : ℚ) (g : Gen) : FillResult ℚ :=
  if isFloatingType st = false then ⟨out, g, some .typeDomain⟩
  else if st ∈ floatingTypesAndHalfBF16 then
    let r := serialFill (exponential_sample ops lambda) out.length g
    ⟨r.1, r.2, none⟩
  else ⟨out, g, some .dispatchUnsupported⟩

/-- Modelled from the spec: `at::bernoulli_distribution`
(DistributionsHelper.h, not under src/) — one uniform draw compared with the
probability. -/
def bernoulli_sample (p : ℚ) (g : Gen) : ℚ × Gen :=
  let q := nextU g
  (if q.1 < p then 1 else 0, q.2)

/-- Which Bernoulli draw path the per-element-probability kernel takes, from
the probability array's element type (lines 319–333): double probabilities go
through the `bernoulli_distribution<double>` branch, any other type reaching
the inner `AT_DISPATCH_FLOATING_TYPES_AND2(BFloat16, Half)` goes through the
`bernoulli_distribution<float>` branch. -/
inductive ProbPath where
  | doublePrec | floatPrec | dispatchErr
deriving DecidableEq

/-- The branch structure of lines 319–333 on the probability dtype. -/
def bernoulliProbPath (pT : ScalarType) : ProbPath :=
  if pT = .Double then .doublePrec
  else if pT ∈ floatingTypesAndHalfBF16 then .floatPrec
  else .dispatchErr

/-- `bernoulli_kernel` with a probability tensor (lines 305–335): dispatch on
the output dtype over all types plus Bool, BFloat16, Half; then select the
draw path from the probability dtype; one Bernoulli sample (one uniform
engine draw) per output element, walking the aligned probability list. -/
def bernoulli_tensor_kernel (selfT pT : ScalarType) (ps : List ℚ)
    (g : Gen) : FillResult ℚ :=
  if selfT ∈ allTypesAndBoolHalfBF16 then
    match bernoulliProbPath pT with
    | .doublePrec =>
      let r := serialFillMap bernoulli_sample ps g
      ⟨r.1, r.2, none⟩
    | .floatPrec =>
      let r := serialFillMap bernoulli_sample ps g
      ⟨r.1, r.2, none⟩
    | .dispatchErr => ⟨[], g, some .dispatchUnsupported⟩
  else ⟨[], g, some .dispatchUnsupported⟩

/-- `bernoulli_kernel` with a scalar probability (lines 337–349). -/
def bernoulli_scalar_kernel (st : ScalarType) (out : List ℚ) (p : ℚ)
    (g : Gen) : FillResult ℚ :=
  if st ∈ allTypesAndBoolHalfBF16 then
    let r := serialFill (bernoulli_sample p) out.length g
    ⟨r.1, r.2, none⟩
  else ⟨out, g, some .dispatchUnsupported⟩

/-- The contiguous float buffer the bulk normal paths write through
(`data_ptr`), modelled as a total map from index to value. -/
abbrev Buf := Nat → ℚ

/-- One store `data[i] = v`. -/
def bufSet (b : Buf) (i : Nat) (v : ℚ) : Buf :=
  fun k => if k = i then v else b k

/-- A loop `for (i : irange(n)) data[s+i] = f(generator)`: draw one value per
iteration and store it at consecutive positions starting at `s`. -/
def fillLoop (f : Gen → ℚ × Gen) : Nat → Buf → Gen → Nat → Buf × Gen
  | 0, b, g, _ => (b, g)
  | n + 1, b, g, s =>
    let q := f g
    fillLoop f n (bufSet b s q.1) q.2 (s + 1)

/-- The uniform-draw passes of `normal_fill` / `normal_fill_vectorize`
(lines 153–156, 164–167, 112–115, 135–138):
`data[i] = uniform_real_distribution(0,1)(generator)`, one engine draw per
element, in order. -/
def drawRange : Nat → Buf → Gen → Nat → Buf × Gen := fillLoop nextU

/-- One iteration `j` of the loop body of `normal_fill_16` (lines 83–92):
read `data[off+j]` and `data[off+j+8]`, apply the Box–Muller transform, store
the two results back at the same positions. -/
def nf16_step (ops : MathOps) (mean std : ℚ) (off : Nat) (d : Buf) (j : Nat) : Buf :=
  let u1 := 1 - d (off + j)
  let u2 := d (off + j + 8)
  let radius := ops.rsqrt (-2 * ops.rlog u1)
  let theta := 2 * ops.pi * u2
  bufSet (bufSet d (off + j) (radius * ops.rcos theta * std + mean))
    (off + j + 8) (radius * ops.rsin theta * std + mean)

/-- `normal_fill_16` (lines 82–92): the scalar Box–Muller transform of one
16-element block starting at `off`, iterating `j = 0, …, 7`. -/
def normal_fill_16 (ops : MathOps) (mean std : ℚ) (d : Buf) (off : Nat) : Buf :=
  (List.range 8).foldl (nf16_step ops mean std off) d

/-- `normal_fill_16_vectorize` (lines 94–105): load lanes `u1 = 1 - data[off+j]`
(`j < 8`) and `u2 = data[off+8+j]`, compute the same Box–Muller formula
width-wide, store the cos-vector to `[off, off+8)` and the sin-vector to
`[off+8, off+16)`. -/
def normal_fill_16_vectorize (ops : MathOps) (mean std : ℚ) (d : Buf) (off : Nat) : Buf :=
  let u1 := fun j => 1 - d (off + j)
  let u2 := fun j => d (off + 8 + j)
  let radius := fun j => ops.rsqrt (-2 * ops.rlog (u1 j))
  let theta := fun j => 2 * ops.pi * u2 j
  fun k =>
    if off ≤ k ∧ k < off + 8 then
      radius (k - off) * ops.rcos (theta (k - off)) * std + mean
    else if off + 8 ≤ k ∧ k < off + 16 then
      radius (k - (off + 8)) * ops.rsin (theta (k - (off + 8))) * std + mean
    else d k

/-- The block-start offsets visited by the loop
`for (int64_t i = 0; i < size - 15; i += 16)` (lines 124, 158), starting from
`i`: over int64 arithmetic `i < size - 15` is `i + 16 ≤ size` over ℕ. -/
def blockStartsAux (size i : Nat) : List Nat :=
  if h : i + 16 ≤ size then i :: blockStartsAux size (i + 16) else []
termination_by size - i
decreasing_by omega

/-- The block starts of the complete-block loop, from `i = 0`. -/
def blockStarts (size : Nat) : List Nat := blockStartsAux size 0

/-- The 16 buffer positions a block transform starting at `o` writes. -/
def windowOf (o : Nat) : Finset Nat := Finset.Ico o (o + 16)

/-- All positions written by the complete-block loop. -/
def blockCover (size : Nat) : Finset Nat :=
  (blockStarts size).foldl (fun s o => s ∪ windowOf o) ∅

/-- Where the tail branch `if (size % 16 != 0)` re-runs the transform:
`data + size - 16` (lines 132–134, 161–163), or nowhere when 16 divides
`size`. -/
def tailStart (size : Nat) : Option Nat :=
  if size % 16 = 0 then none else some (size - 16)

/-- The shared shape of `normal_fill` and `normal_fill_vectorize`
(lines 107–146 and 148–170), parametric in the 16-block transform `tf`:
(1) first pass — draw `size` uniforms, one per element, in order;
(2) transform complete 16-blocks (no generator use);
(3) if `size % 16 ≠ 0`, re-draw 16 fresh uniforms into the last 16 positions
and re-run the transform there. -/
def normal_fill_core (tf : Buf → Nat → Buf) (b : Buf) (size : Nat)
    (g : Gen) : Buf × Gen :=
  let p1 := drawRange size b g 0
  let buf2 := (blockStarts size).foldl tf p1.1
  if size % 16 ≠ 0 then
    let p2 := drawRange 16 buf2 p1.2 (size - 16)
    (tf p2.1 (size - 16), p2.2)
  else (buf2, p1.2)

/-- `normal_fill` (lines 148–170): the scalar bulk path, using the scalar
16-block transform. -/
def normal_fill (ops : MathOps) (mean std : ℚ) (b : Buf) (size : Nat)
    (g : Gen) : Buf × Gen :=
  normal_fill_core (normal_fill_16 ops mean std) b size g

/-- `normal_fill_vectorize` (lines 107–146): per block, use the vector
transform when the hardware vector width is 8 lanes, otherwise fall back to
the scalar 16-block transform (lines 125–130, 139–144). -/
def normal_fill_vectorize (ops : MathOps) (vecSize : Nat) (mean std : ℚ)
    (b : Buf) (size : Nat) (g : Gen) : Buf × Gen :=
  normal_fill_core
    (fun d off =>
      if vecSize = 8 then normal_fill_16_vectorize ops mean std d off
      else normal_fill_16 ops mean std d off)
    b size g

/-- The code paths of `normal_kernel` (lines 172–191). -/
inductive NormalPath where
  | vectorized | scalarBulk | perElement | dispatchError
deriving DecidableEq

/-- The branch structure of `normal_kernel` (lines 175–189): vectorized iff
float dtype, at least 16 elements and contiguous; otherwise dispatch over the
floating set, inside which size/contiguity select bulk scalar or per-element
fill. -/
def normalPath (st : ScalarType) (size : Nat) (contig : Bool) : NormalPath :=
  if st = .Float ∧ 16 ≤ size ∧ contig = true then .vectorized
  else if st ∈ floatingTypesAndHalfBF16 then
    if 16 ≤ size ∧ contig = true then .scalarBulk else .perElement
  else .dispatchError

/-- Result of `normal_kernel`: the buffer, the post-call generator, an
optional error. -/
structure NormalFillResult where
  buf : Buf
  gen : Gen
  err : Option KernelErr

/-- `normal_kernel` (lines 172–191), over a contiguous buffer model: select
the path via `normalPath` and run it. -/
def normal_kernel (ops : MathOps) (vecSize : Nat) (st : ScalarType) (b : Buf)
    (size : Nat) (contig : Bool) (mean std : ℚ) (g : Gen) : NormalFillResult :=
  match normalPath st size contig with
  | .vectorized =>
    let r := normal_fill_vectorize ops vecSize mean std b size g
    ⟨r.1, r.2, none⟩
  | .scalarBulk =>
    let r := normal_fill ops mean std b size g
    ⟨r.1, r.2, none⟩
  | .perElement =>
    let r := fillLoop (normal_sample ops mean std) size b g 0
    ⟨r.1, r.2, none⟩
  | .dispatchError => ⟨b, g, some .dispatchUnsupported⟩

/-- A concrete generator used by the witnesses. -/
def gA : Gen := ⟨fun _ => 1 / 2, fun k => k, 0⟩

/-- A concrete interpretation of the abstract real operations, used by the
witnesses. -/
def opsA : MathOps :=
  ⟨fun q => q, fun q => q, fun q => q, fun q => q, fun q => q, fun q => q,
   fun q => q, 0⟩

/-- A concrete buffer used by the witnesses. -/
def bufA : Buf := fun _ => 0

theorem serialFill_off {α : Type} (f : Gen → α × Gen)
    (hf : ∀ g, (f g).2.off = g.off + 1) :
    ∀ (n : Nat) (g : Gen), (serialFill f n g).2.off = g.off + n := by
  intro n
  induction n with
  | zero => intro g; simp [serialFill]
  | succ n ih =>
    intro g
    simp only [serialFill]
    rw [ih, hf]
    omega

theorem serialFill_mem {α : Type} (f : Gen → α × Gen) :
    ∀ (n : Nat) (g : Gen) (v : α), v ∈ (serialFill f n g).1 → ∃ g0, v = (f g0).1 := by
  intro n
  induction n with
  | zero => intro g v h; simp [serialFill] at h
  | succ n ih =>
    intro g v h
    simp only [serialFill, List.mem_cons] at h
    rcases h with h | h
    · exact ⟨g, h⟩
    · exact ih _ v h

theorem serialFillMap_off {α β : Type} (f : β → Gen → α × Gen)
    (hf : ∀ p g, (f p g).2.off = g.off + 1) :
    ∀ (ps : List β) (g : Gen), (serialFillMap f ps g).2.off = g.off + ps.length := by
  intro ps
  induction ps with
  | nil => intro g; simp [serialFillMap]
  | cons p ps ih =>
    intro g
    simp only [serialFillMap, List.length_cons]
    rw [ih, hf]
    omega

theorem fillLoop_off (f : Gen → ℚ × Gen) (hf : ∀ g, (f g).2.off = g.off + 1) :
    ∀ (n : Nat) (b : Buf) (g : Gen) (s : Nat),
      (fillLoop f n b g s).2.off = g.off + n := by
  intro n
  induction n with
  | zero => intro b g s; simp [fillLoop]
  | succ n ih =>
    intro b g s
    simp only [fillLoop]
    rw [ih, hf]
    omega

theorem fillLoop_lt (f : Gen → ℚ × Gen) :
    ∀ (n : Nat) (b : Buf) (g : Gen) (s k : Nat), k < s →
      (fillLoop f n b g s).1 k = b k := by
  intro n
  induction n with
  | zero => intro b g s k _; rfl
  | succ n ih =>
    intro b g s k hk
    simp only [fillLoop]
    rw [ih _ _ _ k (by omega)]
    simp only [bufSet]
    rw [if_neg (by omega)]

theorem fillLoop_nextU_val :
    ∀ (n : Nat) (b : Buf) (g : Gen) (s i : Nat), i < n →
      (fillLoop nextU n b g s).1 (s + i) = g.ustream (g.off + i) := by
  intro n
  induction n with
  | zero => intro b g s i h; exact absurd h (by omega)
  | succ n ih =>
    intro b g s i hi
    cases i with
    | zero =>
      simp only [fillLoop, Nat.add_zero]
      rw [fillLoop_lt nextU n (bufSet b s (nextU g).1) (nextU g).2 (s + 1) s
        (by omega)]
      simp [bufSet, nextU]
    | succ j =>
      have hswap : s + (j + 1) = s + 1 + j := by omega
      simp only [fillLoop]
      rw [hswap, ih _ _ _ j (by omega)]
      show g.ustream (g.off + 1 + j) = g.ustream (g.off + (j + 1))
      have : g.off + 1 + j = g.off + (j + 1) := by omega
      rw [this]

theorem blockStartsAux_eq (size i : Nat) :
    blockStartsAux size i = (List.range ((size - i) / 16)).map (fun k => i + 16 * k) := by
  unfold blockStartsAux
  by_cases h : i + 16 ≤ size
  · rw [dif_pos h, blockStartsAux_eq size (i + 16)]
    have hn : (size - i) / 16 = (size - (i + 16)) / 16 + 1 := by omega
    rw [hn, List.range_succ_eq_map]
    simp only [List.map_cons, List.map_map, List.cons.injEq]
    constructor
    · omega
    · apply List.map_congr_left
      intro k _
      simp only [Function.comp_apply]
      omega
  · rw [dif_neg h]
    have : (size - i) / 16 = 0 := by omega
    rw [this]
    rfl
termination_by size - i
decreasing_by omega

theorem foldl_union_acc (l : List Nat) :
    ∀ s : Finset Nat,
      l.foldl (fun t o => t ∪ windowOf o) s =
        s ∪ l.foldl (fun t o => t ∪ windowOf o) ∅ := by
  induction l with
  | nil => intro s; simp
  | cons o l ih =>
    intro s
    simp only [List.foldl_cons]
    rw [ih (s ∪ windowOf o), ih (∅ ∪ windowOf o), Finset.empty_union,
      Finset.union_assoc]

theorem windows_union (i : Nat) :
    ∀ n : Nat,
      ((List.range n).map (fun k => i + 16 * k)).foldl
          (fun t o => t ∪ windowOf o) ∅ =
        Finset.Ico i (i + 16 * n) := by
  intro n
  induction n with
  | zero => simp
  | succ n ih =>
    rw [List.range_succ, List.map_append, List.foldl_append, ih]
    simp only [List.map_cons, List.map_nil, List.foldl_cons, List.foldl_nil]
    rw [windowOf, Finset.Ico_union_Ico_eq_Ico (by omega) (by omega)]
    congr 1

theorem blockCover_eq (size : Nat) :
    blockCover size = Finset.Ico 0 (16 * (size / 16)) := by
  rw [blockCover, blockStarts, blockStartsAux_eq, Nat.sub_zero, windows_union,
    Nat.zero_add]

theorem mem_blockStarts {size o : Nat} :
    o ∈ blockStarts size ↔ ∃ k, k < size / 16 ∧ o = 16 * k := by
  rw [blockStarts, blockStartsAux_eq, Nat.sub_zero]
  simp only [List.mem_map, List.mem_range]
  constructor
  · rintro ⟨k, hk, he⟩
    exact ⟨k, hk, by omega⟩
  · rintro ⟨k, hk, he⟩
    exact ⟨k, hk, by omega⟩

theorem normal_fill_core_off (tf : Buf → Nat → Buf) (b : Buf) (size : Nat)
    (g : Gen) :
    (normal_fill_core tf b size g).2.off =
      g.off + size + (if size % 16 = 0 then 0 else 16) := by
  simp only [normal_fill_core, drawRange]
  by_cases h : size % 16 = 0
  · rw [if_neg (not_not_intro h), if_pos h]
    simp [fillLoop_off nextU (fun _ => rfl)]
  · rw [if_pos h, if_neg h]
    simp [fillLoop_off nextU (fun _ => rfl)]

theorem foldl_buf_outside {step : Buf → Nat → Buf} {k : Nat} :
    ∀ (l : List Nat) (d : Buf), (∀ d j, j ∈ l → step d j k = d k) →
      (l.foldl step d) k = d k := by
  intro l
  induction l with
  | nil => intro d _; rfl
  | cons j l ih =>
    intro d h
    simp only [List.foldl_cons]
    rw [ih _ (fun d' j' hj' => h d' j' (List.mem_cons_of_mem _ hj')),
      h d j (List.mem_cons_self _ _)]

theorem normal_fill_16_outside (ops : MathOps) (mean std : ℚ) (d : Buf)
    (off k : Nat) (hk : k < off ∨ off + 16 ≤ k) :
    normal_fill_16 ops mean std d off k = d k := by
  rw [normal_fill_16]
  apply foldl_buf_outside
  intro d' j hj
  have hj8 : j < 8 := List.mem_range.mp hj
  simp only [nf16_step, bufSet]
  rw [if_neg (by omega), if_neg (by omega)]

theorem normal_fill_16_vectorize_outside (ops : MathOps) (mean std : ℚ)
    (d : Buf) (off k : Nat) (hk : k < off ∨ off + 16 ≤ k) :
    normal_fill_16_vectorize ops mean std d off k = d k := by
  simp only [normal_fill_16_vectorize]
  rw [if_neg (by omega), if_neg (by omega)]

/-- Claim C1: for every distribution kernel and every code path (scalar or
vectorized normal), two fill calls on identically-shaped outputs starting
from generators with identical pre-call state produce identical output: each
fill's output is a deterministic function of the output shape/dtype, the
parameters, and the generator's pre-call state. -/
theorem c1_fill_determinism (ops : MathOps) (vecSize : Nat)
    (st stP : ScalarType) (b : Buf) (size range : Nat) (base : Int)
    (contig : Bool) (mean std from_ to_ median sigma lambda p : ℚ)
    (out : List ℚ) (outN : List Nat) (outI : List Int) (ps : List ℚ)
    (g1 g2 : Gen) (h : g1 = g2) :
    normal_kernel ops vecSize st b size contig mean std g1 =
      normal_kernel ops vecSize st b size contig mean std g2
    ∧ random_from_to_kernel st outI range base g1 =
        random_from_to_kernel st outI range base g2
    ∧ random_full_64_bits_range_kernel st outN g1 =
        random_full_64_bits_range_kernel st outN g2
    ∧ random_kernel st outN g1 = random_kernel st outN g2
    ∧ uniform_kernel st out from_ to_ g1 = uniform_kernel st out from_ to_ g2
    ∧ cauchy_kernel ops st out median sigma g1 =
        cauchy_kernel ops st out median sigma g2
    ∧ log_normal_kernel ops st out mean std g1 =
        log_normal_kernel ops st out mean std g2
    ∧ geometric_kernel ops st out p g1 = geometric_kernel ops st out p g2
    ∧ exponential_kernel ops st out lambda g1 =
        exponential_kernel ops st out lambda g2
    ∧ bernoulli_tensor_kernel st stP ps g1 = bernoulli_tensor_kernel st stP ps g2
    ∧ bernoulli_scalar_kernel st out p g1 = bernoulli_scalar_kernel st out p g2 := by
  subst h
  exact ⟨rfl, rfl, rfl, rfl, rfl, rfl, rfl, rfl, rfl, rfl, rfl⟩

/-- Witness for C1 at a concrete generator state. -/
theorem c1_fill_determinism_witness :
    normal_kernel opsA 8 ScalarType.Float bufA 16 true 0 1 gA =
      normal_kernel opsA 8 ScalarType.Float bufA 16 true 0 1 gA :=
  (c1_fill_determinism opsA 8 ScalarType.Float ScalarType.Float bufA 16 1 0
    true 0 1 0 1 0 1 1 (1 / 2) [] [] [] [] gA gA rfl).1

/-- Claim C2: every element produced by the bounded integer sampling kernel
with parameters `(range, base)` (with `range ≥ 1`, as required by the caller
contract) satisfies `base ≤ v < base + range` as mathematical integers
(i.e. before reinterpretation into the output type); for `range = 1` every
element equals `base`. -/
theorem c2_random_from_to_bounds (st : ScalarType) (out : List Int)
    (range : Nat) (base : Int) (g : Gen) (hr : 0 < range) :
    ∀ v ∈ (random_from_to_kernel st out range base g).out,
      base ≤ v ∧ v < base + (range : Int) ∧ (range = 1 → v = base) := by
  intro v hv
  have hst : st ∈ allTypesAndBoolHalfBF16 := by cases st <;> decide
  simp only [random_from_to_kernel, if_pos hst] at hv
  obtain ⟨g0, hg0⟩ :=
    serialFill_mem (uniform_int_from_to range base) out.length g v hv
  subst hg0
  simp only [uniform_int_from_to, nextN]
  have h1 : g0.nstream g0.off % range < range := Nat.mod_lt _ hr
  refine ⟨?_, ?_, ?_⟩
  · omega
  · omega
  · intro he
    subst he
    simp [Nat.mod_one]

/-- Witness for C2 at `(range, base) = (5, -2)` with a concrete generator. -/
theorem c2_random_from_to_bounds_witness :
    (-2 : Int) ≤ -1 ∧ (-1 : Int) < -2 + ((5 : Nat) : Int)
    ∧ ((5 : Nat) = 1 → (-1 : Int) = -2) :=
  c2_random_from_to_bounds ScalarType.Int [0, 0, 0] 5 (-2) gA (by decide) (-1)
    (by decide)

/-- Claim C3: the exponential kernel with a non-floating output element type
fails with a type-domain error, before any generator state is consumed and
before any output element is written: the output and the generator are
unchanged. -/
theorem c3_exponential_type_domain (ops : MathOps) (st : ScalarType)
    (out : List ℚ) (lambda : ℚ) (g : Gen) (h : isFloatingType st = false) :
    (exponential_kernel ops st out lambda g).out = out
    ∧ (exponential_kernel ops st out lambda g).gen = g
    ∧ (exponential_kernel ops st out lambda g).err =
        some KernelErr.typeDomain := by
  unfold exponential_kernel
  rw [if_pos h]
  exact ⟨rfl, rfl, rfl⟩

/-- Witness for C3 at a 64-bit integer output type. -/
theorem c3_exponential_type_domain_witness :
    (exponential_kernel opsA ScalarType.Long [1, 2] 1 gA).out = [1, 2]
    ∧ (exponential_kernel opsA ScalarType.Long [1, 2] 1 gA).gen = gA
    ∧ (exponential_kernel opsA ScalarType.Long [1, 2] 1 gA).err =
        some KernelErr.typeDomain :=
  c3_exponential_type_domain opsA ScalarType.Long [1, 2] 1 gA (by decide)

/-- Claim C4 counterexample: an Int-typed output fails the three vectorized
conditions but takes NEITHER the scalar bulk path NOR the per-element path —
the floating dispatch of the else branch raises an error instead. -/
theorem c4_normal_path_counterexample :
    normalPath ScalarType.Int 20 true = NormalPath.dispatchError
    ∧ ¬(normalPath ScalarType.Int 20 true = NormalPath.scalarBulk
        ∨ normalPath ScalarType.Int 20 true = NormalPath.perElement) := by
  decide

/-- Claim C4 (amended): the normal kernel takes the vectorized fast path
exactly when the output's element type is single-precision float, the element
count is at least 16 and the output is contiguous; every output of a
supported floating element type (double, float, half, bfloat16) failing one
of these conditions takes the scalar bulk path or the per-element path
(while a non-floating element type raises a dispatch error instead). -/
theorem c4_normal_path_selection (st : ScalarType) (size : Nat)
    (contig : Bool) :
    (normalPath st size contig = NormalPath.vectorized ↔
      (st = ScalarType.Float ∧ 16 ≤ size ∧ contig = true))
    ∧ (st ∈ floatingTypesAndHalfBF16 →
        normalPath st size contig ≠ NormalPath.vectorized →
        (normalPath st size contig = NormalPath.scalarBulk
          ∨ normalPath st size contig = NormalPath.perElement)) := by
  simp only [normalPath]
  split_ifs with h1 h2 h3
  · exact ⟨iff_of_true rfl h1, fun _ hne => absurd rfl hne⟩
  · exact ⟨iff_of_false (by decide) h1, fun _ _ => Or.inl rfl⟩
  · exact ⟨iff_of_false (by decide) h1, fun _ _ => Or.inr rfl⟩
  · exact ⟨iff_of_false (by decide) h1, fun hmem _ => absurd hmem h2⟩

/-- Witness for C4 at a double-typed output of 5 elements. -/
theorem c4_normal_path_selection_witness :
    normalPath ScalarType.Double 5 true = NormalPath.scalarBulk
    ∨ normalPath ScalarType.Double 5 true = NormalPath.perElement :=
  (c4_normal_path_selection ScalarType.Double 5 true).2 (by decide) (by decide)

/-- Claim C5 counterexample: the uniform kernel does NOT instantiate its
sampler in double precision for every supported output type — for a Half
output (which is in the uniform dispatch set) the sampler template argument
is Half, not Double (line 208 `uniform_real_distribution<scalar_t>`). -/
theorem c5_uniform_precision_counterexample :
    uniformSamplerScalar ScalarType.Half ≠ ScalarType.Double
    ∧ ScalarType.Half ∈ floatingTypesAndHalfBF16 := by
  decide

/-- Claim C5 (amended): cauchy, log-normal, exponential and geometric samples
are computed by samplers instantiated at double precision regardless of the
output type and narrowed only at the end; the uniform kernel instead narrows
`from`/`to` to the output element type first and instantiates its sampler at
the output element type, so only for a double output is the uniform sample
computed in double precision. -/
theorem c5_sampler_precision (st : ScalarType) :
    cauchySamplerScalar st = ScalarType.Double
    ∧ logNormalSamplerScalar st = ScalarType.Double
    ∧ exponentialSamplerScalar st = ScalarType.Double
    ∧ geometricSamplerScalar st = ScalarType.Double
    ∧ uniformSamplerScalar st = st
    ∧ uniformBoundsCastType st = st :=
  ⟨rfl, rfl, rfl, rfl, rfl, rfl⟩

/-- Claim C6: the full-64-bit-range random kernel succeeds exactly for int64,
double, float and bfloat16 outputs; for every other output element type it
reports an error without consuming generator state or writing any element. -/
theorem c6_full64_type_restriction (st : ScalarType) (out : List Nat)
    (g : Gen) :
    (st ∉ full64SupportedSet →
      (random_full_64_bits_range_kernel st out g).err.isSome = true
      ∧ (random_full_64_bits_range_kernel st out g).out = out
      ∧ (random_full_64_bits_range_kernel st out g).gen = g)
    ∧ (st ∈ full64SupportedSet →
      (random_full_64_bits_range_kernel st out g).err = none) := by
  constructor
  · intro h
    by_cases h1 : st ∈ allTypesAndBF16
    · unfold random_full_64_bits_range_kernel
      rw [if_pos h1, if_neg h]
      exact ⟨rfl, rfl, rfl⟩
    · unfold random_full_64_bits_range_kernel
      rw [if_neg h1]
      exact ⟨rfl, rfl, rfl⟩
  · intro h
    have h1 : st ∈ allTypesAndBF16 := by fin_cases h <;> decide
    unfold random_full_64_bits_range_kernel
    rw [if_pos h1, if_pos h]

/-- Witness for C6: a 16-bit integer output errors with nothing consumed,
a 64-bit integer output succeeds. -/
theorem c6_full64_type_restriction_witness :
    ((random_full_64_bits_range_kernel ScalarType.Short [3, 4] gA).err.isSome = true
      ∧ (random_full_64_bits_range_kernel ScalarType.Short [3, 4] gA).out = [3, 4]
      ∧ (random_full_64_bits_range_kernel ScalarType.Short [3, 4] gA).gen = gA)
    ∧ (random_full_64_bits_range_kernel ScalarType.Long [3, 4] gA).err = none :=
  ⟨(c6_full64_type_restriction ScalarType.Short [3, 4] gA).1 (by decide),
   (c6_full64_type_restriction ScalarType.Long [3, 4] gA).2 (by decide)⟩

/-- Claim C7 counterexample: the geometric kernel's dispatch set is NOT the
floating set — `AT_DISPATCH_ALL_TYPES_AND2(Half, BFloat16)` contains the Int
element type, which is outside floating+half+bfloat16, and an Int-typed
output IS filled without error. -/
theorem c7_geometric_dispatch_counterexample :
    ScalarType.Int ∈ allTypesAndHalfBF16
    ∧ ScalarType.Int ∉ floatingTypesAndHalfBF16
    ∧ (geometric_kernel opsA ScalarType.Int [0] (1 / 2) gA).err = none := by
  decide

/-- Claim C7 (amended): the geometric kernel's dispatch set is all integer
types plus the floating types plus Half plus BFloat16 — strictly larger than
the floating+half+bfloat16 set used by uniform/cauchy/lognormal/exponential/
normal; only a Bool output is outside it and is not filled, while integer
outputs are inside and are filled. -/
theorem c7_geometric_dispatch (ops : MathOps) (out : List ℚ) (p : ℚ)
    (g : Gen) :
    allTypesAndHalfBF16 =
      [ScalarType.Byte, ScalarType.Char, ScalarType.Short, ScalarType.Int,
       ScalarType.Long, ScalarType.Float, ScalarType.Double, ScalarType.Half,
       ScalarType.BFloat16]
    ∧ ScalarType.Bool ∉ allTypesAndHalfBF16
    ∧ floatingTypesAndHalfBF16.all (fun t => decide (t ∈ allTypesAndHalfBF16)) = true
    ∧ (geometric_kernel ops ScalarType.Bool out p g).err =
        some KernelErr.dispatchUnsupported
    ∧ (geometric_kernel ops ScalarType.Bool out p g).out = out
    ∧ (geometric_kernel ops ScalarType.Bool out p g).gen = g
    ∧ (geometric_kernel ops ScalarType.Int out p g).err = none := by
  have hB : ScalarType.Bool ∉ allTypesAndHalfBF16 := by decide
  have hI : ScalarType.Int ∈ allTypesAndHalfBF16 := by decide
  refine ⟨rfl, hB, by decide, ?_, ?_, ?_, ?_⟩
  · simp only [geometric_kernel, if_neg hB]
  · simp only [geometric_kernel, if_neg hB]
  · simp only [geometric_kernel, if_neg hB]
  · simp only [geometric_kernel, if_pos hI]

/-- Claim C8: for a bulk normal fill of `size ≥ 16` with `size` not a
multiple of 16, the tail branch re-draws 16 fresh uniforms (16 extra
generator draws) and re-runs the 16-block transform at offset `size - 16`,
whose window overlaps the positions already written by the complete-block
loop in between 1 and 15 positions (exactly `16 - size % 16`); for `size` a
multiple of 16 there is no tail and the block windows are pairwise disjoint.
Each 16-block transform (scalar and vectorized) writes only inside its own
16-position window. -/
theorem c8_tail_recompute (size : Nat) (h16 : 16 ≤ size) :
    (size % 16 ≠ 0 →
      tailStart size = some (size - 16)
      ∧ (windowOf (size - 16) ∩ blockCover size).card = 16 - size % 16
      ∧ 1 ≤ (windowOf (size - 16) ∩ blockCover size).card
      ∧ (windowOf (size - 16) ∩ blockCover size).card ≤ 15
      ∧ (∀ (ops : MathOps) (mean std : ℚ) (b : Buf) (g : Gen),
          (normal_fill ops mean std b size g).2.off = g.off + size + 16)
      ∧ (∀ (ops : MathOps) (vecSize : Nat) (mean std : ℚ) (b : Buf) (g : Gen),
          (normal_fill_vectorize ops vecSize mean std b size g).2.off =
            g.off + size + 16))
    ∧ (size % 16 = 0 →
      tailStart size = none
      ∧ (∀ o1, o1 ∈ blockStarts size → ∀ o2, o2 ∈ blockStarts size →
          o1 ≠ o2 → windowOf o1 ∩ windowOf o2 = ∅))
    ∧ (∀ (ops : MathOps) (mean std : ℚ) (d : Buf) (off k : Nat),
        k < off ∨ off + 16 ≤ k →
        normal_fill_16 ops mean std d off k = d k
        ∧ normal_fill_16_vectorize ops mean std d off k = d k) := by
  have hcard : size % 16 ≠ 0 →
      (windowOf (size - 16) ∩ blockCover size).card = 16 - size % 16 := by
    intro hne
    have hset : windowOf (size - 16) ∩ blockCover size =
        Finset.Ico (size - 16) (16 * (size / 16)) := by
      rw [blockCover_eq, windowOf]
      ext x
      simp only [Finset.mem_inter, Finset.mem_Ico]
      omega
    rw [hset, Nat.card_Ico]
    omega
  refine ⟨?_, ?_, ?_⟩
  · intro hne
    refine ⟨?_, hcard hne, ?_, ?_, ?_, ?_⟩
    · rw [tailStart, if_neg hne]
    · rw [hcard hne]; omega
    · rw [hcard hne]; omega
    · intro ops mean std b g
      rw [normal_fill, normal_fill_core_off, if_neg hne]
    · intro ops vecSize mean std b g
      rw [normal_fill_vectorize, normal_fill_core_off, if_neg hne]
  · intro hz
    refine ⟨?_, ?_⟩
    · rw [tailStart, if_pos hz]
    · intro o1 h1 o2 h2 hne12
      obtain ⟨k1, hk1, e1⟩ := mem_blockStarts.mp h1
      obtain ⟨k2, hk2, e2⟩ := mem_blockStarts.mp h2
      subst e1
      subst e2
      ext x
      simp only [windowOf, Finset.mem_inter, Finset.mem_Ico,
        Finset.not_mem_empty, iff_false]
      omega
  · intro ops mean std d off k hk
    exact ⟨normal_fill_16_outside ops mean std d off k hk,
      normal_fill_16_vectorize_outside ops mean std d off k hk⟩

/-- Witness for C8 at sizes 17 (tail re-draw and 15-position overlap) and 32
(no tail). -/
theorem c8_tail_recompute_witness :
    tailStart 17 = some (17 - 16)
    ∧ (windowOf (17 - 16) ∩ blockCover 17).card = 16 - 17 % 16
    ∧ tailStart 32 = none := by
  have h17 := (c8_tail_recompute 17 (by decide)).1 (by decide)
  have h32 := ((c8_tail_recompute 32 (by decide)).2.1 (by decide)).1
  exact ⟨h17.1, h17.2.1, h32⟩

/-- Claim C9: in the per-element-probability Bernoulli kernel, a double
probability dtype selects the double-precision draw path, any other floating
probability dtype selects the single-precision draw path, and on either path
exactly one Bernoulli sample (one uniform engine draw) is drawn per output
element. -/
theorem c9_bernoulli_prob_paths (selfT pT : ScalarType) (ps : List ℚ)
    (g : Gen) (hself : selfT ∈ allTypesAndBoolHalfBF16) :
    (pT = ScalarType.Double → bernoulliProbPath pT = ProbPath.doublePrec)
    ∧ (pT ≠ ScalarType.Double → isFloatingType pT = true →
        bernoulliProbPath pT = ProbPath.floatPrec)
    ∧ (bernoulliProbPath pT ≠ ProbPath.dispatchErr →
        (bernoulli_tensor_kernel selfT pT ps g).gen.off =
          g.off + ps.length) := by
  refine ⟨?_, ?_, ?_⟩
  · intro h
    rw [bernoulliProbPath, if_pos h]
  · intro h1 h2
    cases pT <;> revert h1 h2 <;> decide
  · intro h
    simp only [bernoulli_tensor_kernel, if_pos hself]
    cases hp : bernoulliProbPath pT with
    | doublePrec =>
      simp only [hp]
      rw [serialFillMap_off bernoulli_sample (fun _ _ => rfl)]
    | floatPrec =>
      simp only [hp]
      rw [serialFillMap_off bernoulli_sample (fun _ _ => rfl)]
    | dispatchErr => exact absurd hp h

/-- Witness for C9: a Float probability array takes the single-precision
path and consumes one draw per element. -/
theorem c9_bernoulli_prob_paths_witness :
    bernoulliProbPath ScalarType.Float = ProbPath.floatPrec
    ∧ (bernoulli_tensor_kernel ScalarType.Bool ScalarType.Float
        [1 / 2, 1 / 2] gA).gen.off = gA.off + ([1 / 2, 1 / 2] : List ℚ).length := by
  have h := c9_bernoulli_prob_paths ScalarType.Bool ScalarType.Float
    [1 / 2, 1 / 2] gA (by decide)
  exact ⟨h.2.1 (by decide) (by decide), h.2.2 (by decide)⟩

/-- Claim C10: in the bulk normal paths with `size ≥ 16`, the first pass
draws exactly `size` uniforms, one per output element in order, before any
Box–Muller transform runs; the whole fill consumes exactly
`size + (16 if size % 16 ≠ 0 else 0)` draws, for the scalar bulk path and
for the vectorized path alike. -/
theorem c10_upfront_uniform_draws (ops : MathOps) (mean std : ℚ) (b : Buf)
    (size : Nat) (g : Gen) (_h16 : 16 ≤ size) :
    (drawRange size b g 0).2.off = g.off + size
    ∧ (∀ i, i < size → (drawRange size b g 0).1 i = g.ustream (g.off + i))
    ∧ (normal_fill ops mean std b size g).2.off =
        g.off + size + (if size % 16 = 0 then 0 else 16)
    ∧ (∀ vecSize, (normal_fill_vectorize ops vecSize mean std b size g).2.off =
        g.off + size + (if size % 16 = 0 then 0 else 16)) := by
  refine ⟨?_, ?_, ?_, ?_⟩
  · simp only [drawRange]
    rw [fillLoop_off nextU (fun _ => rfl)]
  · intro i hi
    have h := fillLoop_nextU_val size b g 0 i hi
    simpa [drawRange] using h
  · simp only [normal_fill]
    exact normal_fill_core_off _ b size g
  · intro vecSize
    simp only [normal_fill_vectorize]
    exact normal_fill_core_off _ b size g

/-- Witness for C10 at size 17. -/
theorem c10_upfront_uniform_draws_witness :
    (normal_fill opsA 0 1 bufA 17 gA).2.off =
      gA.off + 17 + (if 17 % 16 = 0 then 0 else 16) :=
  (c10_upfront_uniform_draws opsA 0 1 bufA 17 gA (by decide)).2.2.1

end ATenCPU
